import Mathlib

/-
  Verification of the agent-orchestration layer of the Langgraph-API-wrapper
  repository: edge routing, middleware handler chaining, structured-output
  handling, schema merging, filesystem eviction middleware, and the unified
  streaming protocol.  Every definition is a shallow embedding of the
  corresponding Python function; file and line references are given in the
  doc comments.
-/

set_option maxHeartbeats 1000000
set_option maxRecDepth 8192

namespace Spec2Proof

/-! ## Message data model (langchain message shapes used by the routing code) -/

/-- One tool call requested by an assistant message: its tool name, call id and
raw argument payload (arguments are kept abstract as a string). -/
structure ToolCall where
  name : String
  id : String
  args : String
deriving Repr, DecidableEq

/-- An assistant (AI) message: textual content plus the list of tool calls. -/
structure AIMsg where
  content : String
  tool_calls : List ToolCall
deriving Repr, DecidableEq

/-- A tool-result message: content, the id of the tool call it answers, and an
optional tool name (ToolMessage.name defaults to None in langchain). -/
structure ToolMsg where
  content : String
  tool_call_id : String
  name : Option String
deriving Repr, DecidableEq

/-- The message union used by the graph state (AnyMessage). -/
inductive Message
  | ai (m : AIMsg)
  | tool (m : ToolMsg)
  | human (content : String)
  | system (content : String)
deriving Repr, DecidableEq

/-- Project a message to a tool message when it is one. -/
def isToolMessage : Message → Option ToolMsg
  | .tool m => some m
  | _ => none

/-- Whether a message is an assistant message. -/
def isAIMessage : Message → Bool
  | .ai _ => true
  | _ => false

/-! ## Edge routing (src/src/app/application/edges) -/

/-- The middleware jump directive type: Literal of model, end, tools
(langchain JumpTo). -/
inductive JumpTo
  | model
  | end_
  | tools
deriving Repr, DecidableEq

/-- Embeds `_resolve_jump` of src/src/app/application/edges/model_to_tools.py
(lines 18-31).  The source returns None on an unrecognized value; since the
JumpTo type has exactly the three recognized literals, the embedding is total. -/
def _resolve_jump (jump_to : JumpTo) (model_destination end_destination : String) : String :=
  match jump_to with
  | .model => model_destination
  | .end_ => end_destination
  | .tools => "tools"

/-- Embeds `_fetch_last_ai_and_tool_messages` (model_to_tools.py lines 34-50 and
tools_to_model.py lines 16-32, identical code): scan backwards for the last
assistant message and collect the tool messages that follow it.  The source
leaves its result variables unassigned when no assistant message exists, so the
subsequent use raises UnboundLocalError; that crash is embedded as `none`. -/
def _fetch_last_ai_and_tool_messages : List Message → Option (AIMsg × List ToolMsg)
  | [] => none
  | m :: rest =>
    match _fetch_last_ai_and_tool_messages rest with
    | some r => some r
    | none =>
      match m with
      | .ai a => some (a, rest.filterMap isToolMessage)
      | _ => none

/-- The slice of graph state read by the routing functions: the optional
jump directive (state.get of jump_to), the message list, and whether the
structured_response key is present in state. -/
structure EdgeState where
  jump_to : Option JumpTo
  messages : List Message
  has_structured_response : Bool
deriving Repr, DecidableEq

/-- Return value of the model-to-tools router: either a single node name or a
parallel fan-out of Send packets, each targeting the tools node with one
pending tool call. -/
inductive RouteResult
  | node (dest : String)
  | sends (tool_calls : List ToolCall)
deriving Repr, DecidableEq

/-- Embeds the closure `model_to_tools` created by `make_model_to_tools_edge`
(src/src/app/application/edges/model_to_tools.py lines 53-112).  `none` models
the UnboundLocalError crash when the state has no assistant message. -/
def model_to_tools (model_destination : String) (structured_output_tools : List String)
    (end_destination : String) (state : EdgeState) : Option RouteResult :=
  match state.jump_to with
  | some jump_to =>
    some (.node (_resolve_jump jump_to model_destination end_destination))
  | none =>
    match _fetch_last_ai_and_tool_messages state.messages with
    | none => none
    | some (last_ai_message, tool_messages) =>
      let tool_message_ids := tool_messages.map (·.tool_call_id)
      if last_ai_message.tool_calls.length = 0 then
        some (.node end_destination)
      else
        let pending_tool_calls := last_ai_message.tool_calls.filter
          (fun c => !tool_message_ids.contains c.id
            && !structured_output_tools.contains c.name)
        if pending_tool_calls ≠ [] then
          some (.sends pending_tool_calls)
        else if state.has_structured_response then
          some (.node end_destination)
        else
          some (.node model_destination)

/-- Embeds the closure `tools_to_model` created by `make_tools_to_model_edge`
(src/src/app/application/edges/tools_to_model.py lines 35-71).  The tool node
is represented by its tools_by_name map restricted to what the router reads:
tool name to return_direct flag. -/
def tools_to_model (tools_by_name : List (String × Bool)) (model_destination : String)
    (structured_output_tools : List String) (end_destination : String)
    (state : EdgeState) : Option String :=
  match _fetch_last_ai_and_tool_messages state.messages with
  | none => none
  | some (last_ai_message, tool_messages) =>
    let client_side_tool_calls := last_ai_message.tool_calls.filter
      (fun c => (tools_by_name.lookup c.name).isSome)
    if client_side_tool_calls ≠ [] ∧ client_side_tool_calls.all
        (fun c => (tools_by_name.lookup c.name).getD false) then
      some end_destination
    else if tool_messages.any (fun t =>
        match t.name with
        | some n => structured_output_tools.contains n
        | none => false) then
      some end_destination
    else
      some model_destination

/-- Embeds the destination list registered for the model-to-tools conditional
edge in `add_tool_edges` (src/src/app/application/graph/edge_router.py lines
139-147): base destinations tools and exit_node, with loop_entry_node appended
exactly when a response format is configured or the loop exit differs from the
model node. -/
def model_to_tools_destinations (loop_entry_node loop_exit_node exit_node : String)
    (has_response_format : Bool) : List String :=
  if has_response_format || loop_exit_node != "model" then
    ["tools", exit_node, loop_entry_node]
  else
    ["tools", exit_node]

/-- The node names referenced by a routing result: a single node, or the tools
node for every Send of a fan-out. -/
def routeTargets : RouteResult → List String
  | .node d => [d]
  | .sends _ => ["tools"]

/-! ## Helper lemmas for the routing claims -/

/-- The model-to-tools router can only ever name the model destination, the end
destination, the literal tools node, or a fan-out of Sends to the tools node. -/
theorem model_to_tools_cases (md : String) (so : List String) (ed : String)
    (st : EdgeState) (r : RouteResult)
    (h : model_to_tools md so ed st = some r) :
    r = .node md ∨ r = .node ed ∨ r = .node "tools" ∨ ∃ l, r = .sends l := by
  unfold model_to_tools at h
  rcases hj : st.jump_to with _ | j
  · rw [hj] at h
    rcases hf : _fetch_last_ai_and_tool_messages st.messages with _ | ⟨a, tms⟩
    · rw [hf] at h; exact absurd h (by simp)
    · rw [hf] at h
      simp only [] at h
      split_ifs at h with h1 h2 h3
      · exact Or.inr (Or.inl (by injection h with h; exact h.symm))
      · exact Or.inr (Or.inr (Or.inr ⟨_, by injection h with h; exact h.symm⟩))
      · exact Or.inr (Or.inl (by injection h with h; exact h.symm))
      · exact Or.inl (by injection h with h; exact h.symm)
  · rw [hj] at h
    cases j <;> simp [_resolve_jump] at h
    · exact Or.inl h.symm
    · exact Or.inr (Or.inl h.symm)
    · exact Or.inr (Or.inr (Or.inl h.symm))

theorem tools_mem_destinations (le lx ex : String) (rf : Bool) :
    "tools" ∈ model_to_tools_destinations le lx ex rf := by
  unfold model_to_tools_destinations; split <;> simp

theorem exit_mem_destinations (le lx ex : String) (rf : Bool) :
    ex ∈ model_to_tools_destinations le lx ex rf := by
  unfold model_to_tools_destinations; split <;> simp

theorem entry_mem_destinations (le lx ex : String) (rf : Bool)
    (h : rf = true ∨ lx ≠ "model") :
    le ∈ model_to_tools_destinations le lx ex rf := by
  unfold model_to_tools_destinations
  rcases h with h | h
  · simp [h]
  · have hb : (lx != "model") = true := bne_iff_ne.mpr h
    simp [hb]

/-- C1: Routing completeness of the model-to-tools conditional edge.  Whenever
the Edge Router includes the loop-entry node in the registered destinations
(that is, a response format is configured or the loop exit differs from the
model node), every destination the model_to_tools routing function can return
on any state - including the branch that loops back to the loop-entry node
when the last assistant message has tool calls but none are pending - is a
member of the registered destination list. -/
theorem routing_completeness_model_to_tools
    (loop_entry_node loop_exit_node exit_node : String)
    (structured_output_tools : List String) (has_response_format : Bool)
    (state : EdgeState) (r : RouteResult)
    (hcond : has_response_format = true ∨ loop_exit_node ≠ "model")
    (hrun : model_to_tools loop_entry_node structured_output_tools exit_node state = some r)
    (d : String) (hd : d ∈ routeTargets r) :
    d ∈ model_to_tools_destinations loop_entry_node loop_exit_node exit_node
      has_response_format := by
  have hentry := entry_mem_destinations loop_entry_node loop_exit_node exit_node
    has_response_format hcond
  have hexit := exit_mem_destinations loop_entry_node loop_exit_node exit_node
    has_response_format
  have htools := tools_mem_destinations loop_entry_node loop_exit_node exit_node
    has_response_format
  rcases model_to_tools_cases _ _ _ _ _ hrun with h | h | h | ⟨l, h⟩ <;>
    subst h <;> simp [routeTargets] at hd <;> subst hd
  · exact hentry
  · exact hexit
  · exact htools
  · exact htools

/-- Witness for C1 at a concrete configuration: an after_model hook exists, the
model answered with one pending tool call, and the router fans out to tools. -/
theorem routing_completeness_model_to_tools_witness :
    "tools" ∈ model_to_tools_destinations "model" "guard.after_model" "__end__" false :=
  routing_completeness_model_to_tools "model" "guard.after_model" "__end__" [] false
    ⟨none, [.ai ⟨"", [⟨"search", "call_1", "q"⟩]⟩], false⟩
    (.sends [⟨"search", "call_1", "q"⟩])
    (Or.inr (by decide)) (by decide) "tools" (by decide)

/-- C2 counterexample: a state carrying a middleware jump directive makes the
model-to-tools router ignore the zero-tool-call exit condition.  The last
assistant message has zero tool calls, yet the router returns the tools node
rather than the exit destination. -/
theorem tool_call_exit_overridden_by_jump_counterexample :
    _fetch_last_ai_and_tool_messages [.ai ⟨"done", []⟩] = some (⟨"done", []⟩, [])
    ∧ model_to_tools "model" [] "__end__"
        ⟨some .tools, [.ai ⟨"done", []⟩], false⟩ = some (.node "tools")
    ∧ ("tools" : String) ≠ "__end__" := by
  refine ⟨rfl, rfl, by decide⟩

/-- C2 (amended): for every state that carries no middleware jump directive and
whose most recent assistant message contains zero tool calls, the
model-to-tools routing function returns the exit destination, regardless of
any other state content. -/
theorem tool_call_exit_condition_no_jump (md : String) (so : List String) (ed : String)
    (st : EdgeState) (a : AIMsg) (tms : List ToolMsg)
    (hjump : st.jump_to = none)
    (hfetch : _fetch_last_ai_and_tool_messages st.messages = some (a, tms))
    (hcalls : a.tool_calls = []) :
    model_to_tools md so ed st = some (.node ed) := by
  unfold model_to_tools
  rw [hjump, hfetch]
  simp [hcalls]

/-- Witness for the amended C2 at a concrete state. -/
theorem tool_call_exit_condition_no_jump_witness :
    model_to_tools "model" [] "__end__" ⟨none, [.human "hi", .ai ⟨"bye", []⟩], false⟩
      = some (.node "__end__") :=
  tool_call_exit_condition_no_jump "model" [] "__end__"
    ⟨none, [.human "hi", .ai ⟨"bye", []⟩], false⟩ ⟨"bye", []⟩ []
    rfl (by decide) rfl

/-- Unfolding equation for the last-assistant-message helper on a cons cell. -/
theorem fetch_cons (m : Message) (rest : List Message) :
    _fetch_last_ai_and_tool_messages (m :: rest)
      = match _fetch_last_ai_and_tool_messages rest with
        | some r => some r
        | none =>
          match m with
          | .ai a => some (a, rest.filterMap isToolMessage)
          | _ => none := rfl

/-- On a message list with no assistant message, the helper that locates the
last assistant message never assigns its result (modelled as none). -/
theorem fetch_none_of_no_ai (msgs : List Message)
    (h : ∀ m ∈ msgs, isAIMessage m = false) :
    _fetch_last_ai_and_tool_messages msgs = none := by
  induction msgs with
  | nil => rfl
  | cons m rest ih =>
    have hm := h m (by simp)
    have hrest := ih (fun x hx => h x (by simp [hx]))
    rw [fetch_cons, hrest]
    cases m <;> simp_all [isAIMessage]

/-- C10 counterexample: the model-to-tools routing function is defined on a
state with no assistant message at all when the state carries a jump
directive, because the jump branch returns before the last-assistant-message
helper runs.  So the two routers are not both undefined on assistant-free
states. -/
theorem routing_defined_without_ai_message_counterexample :
    ([] : List Message).all (fun m => !isAIMessage m) = true
    ∧ model_to_tools "model" [] "__end__" ⟨some .end_, [], false⟩
        = some (.node "__end__") := by
  exact ⟨rfl, rfl⟩

/-- C10 (amended): on a state with no assistant message the tools-to-model
routing function always fails with an unbound-variable error (modelled as
none), and the model-to-tools routing function fails in the same way whenever
the state carries no jump directive; only an explicit jump directive lets
model-to-tools return a destination without an assistant message. -/
theorem routing_requires_ai_message (tools_by_name : List (String × Bool))
    (md : String) (so : List String) (ed : String) (st : EdgeState)
    (hnoai : ∀ m ∈ st.messages, isAIMessage m = false) :
    tools_to_model tools_by_name md so ed st = none
    ∧ (st.jump_to = none → model_to_tools md so ed st = none) := by
  have hf := fetch_none_of_no_ai st.messages hnoai
  constructor
  · unfold tools_to_model; rw [hf]
  · intro hj; unfold model_to_tools; rw [hj, hf]

/-- Witness for the amended C10 at a concrete assistant-free state. -/
theorem routing_requires_ai_message_witness :
    tools_to_model [("search", false)] "model" [] "__end__"
        ⟨none, [.human "hello"], false⟩ = none
    ∧ ((⟨none, [.human "hello"], false⟩ : EdgeState).jump_to = none →
        model_to_tools "model" [] "__end__"
          ⟨none, [.human "hello"], false⟩ = none) :=
  routing_requires_ai_message [("search", false)] "model" [] "__end__"
    ⟨none, [.human "hello"], false⟩ (by decide)

/-! ## Model-call handler chaining
(src/src/app/application/middleware/model_call_chain.py) -/

/-- A model invocation response: ordered result messages plus the optional
structured payload.  Generic in the message type M and structured type S. -/
structure ModelResponse (M S : Type) where
  result : List M
  structured_response : Option S

/-- The union ModelResponse | AIMessage returned by a model-call wrapper. -/
inductive HandlerResult (M S : Type)
  | msg (m : M)
  | resp (r : ModelResponse M S)

/-- A model-call wrapper: takes the request and the next handler, returns
either a raw assistant message or a full ModelResponse. -/
abbrev ModelCallHandler (Req M S : Type) :=
  Req → (Req → ModelResponse M S) → HandlerResult M S

/-- Embeds `normalize_to_model_response` (model_call_chain.py lines 20-28): a
raw assistant message becomes a single-message response with no structured
payload; a full response passes through. -/
def normalize_to_model_response {M S : Type} : HandlerResult M S → ModelResponse M S
  | .msg m => ⟨[m], none⟩
  | .resp r => r

/-- Embeds the inner `compose_two` of `chain_model_call_handlers`
(model_call_chain.py lines 76-104): outer wraps inner, normalizing at each
boundary crossing. -/
def compose_two {Req M S : Type} (outer inner : ModelCallHandler Req M S) :
    ModelCallHandler Req M S :=
  fun request handler =>
    .resp (normalize_to_model_response (outer request
      (fun req => normalize_to_model_response (inner req handler))))

/-- Embeds `chain_model_call_handlers` (model_call_chain.py lines 31-120):
None for an empty list, a normalized single handler, otherwise a right-to-left
fold of compose_two over the reversed prefix starting from the last handler,
wrapped in a final normalization. -/
def chain_model_call_handlers {Req M S : Type} :
    List (ModelCallHandler Req M S) →
      Option (Req → (Req → ModelResponse M S) → ModelResponse M S)
  | [] => none
  | [single_handler] =>
    some (fun request handler =>
      normalize_to_model_response (single_handler request handler))
  | h₁ :: h₂ :: rest =>
    some (fun request handler =>
      normalize_to_model_response
        ((((h₁ :: h₂ :: rest).dropLast).reverse.foldl
            (fun acc h => compose_two h acc)
            ((h₁ :: h₂ :: rest).getLast (by simp))) request handler))

/-- Reference semantics for the composition claim, following the words of the
specification: classic onion nesting in which the first wrapper is outermost
and every boundary crossing is normalized to a full ModelResponse. -/
def onion_chain {Req M S : Type} :
    List (ModelCallHandler Req M S) → (Req → ModelResponse M S) → Req →
      ModelResponse M S
  | [], base, req => base req
  | w :: ws, base, req =>
    normalize_to_model_response (w req (fun r => onion_chain ws base r))

/-- The right-nested compose_two tower the source fold builds. -/
def rfold_chain {Req M S : Type} :
    ModelCallHandler Req M S → List (ModelCallHandler Req M S) →
      ModelCallHandler Req M S
  | h, [] => h
  | h, h₂ :: rest => compose_two h (rfold_chain h₂ rest)

/-- The source foldl over the reversed prefix equals the right-nested
compose_two tower. -/
theorem foldl_eq_rfold_chain {Req M S : Type}
    (h : ModelCallHandler Req M S) (t : List (ModelCallHandler Req M S)) :
    (((h :: t).dropLast).reverse.foldl (fun acc g => compose_two g acc)
        ((h :: t).getLast (by simp)))
      = rfold_chain h t := by
  induction t generalizing h with
  | nil => rfl
  | cons h₂ rest ih =>
    have hne : h₂ :: rest ≠ [] := by simp
    rw [List.dropLast_cons₂, List.reverse_cons, List.foldl_append,
      List.getLast_cons hne]
    simp only [List.foldl_cons, List.foldl_nil]
    rw [ih h₂]
    rfl

/-- Normalizing the compose_two tower agrees with the onion reference
semantics. -/
theorem rfold_chain_eq_onion {Req M S : Type}
    (h : ModelCallHandler Req M S) (t : List (ModelCallHandler Req M S))
    (req : Req) (base : Req → ModelResponse M S) :
    normalize_to_model_response (rfold_chain h t req base)
      = onion_chain (h :: t) base req := by
  induction t generalizing h req with
  | nil => rfl
  | cons h₂ rest ih =>
    have harg : (fun r => normalize_to_model_response (rfold_chain h₂ rest r base))
        = fun r => onion_chain (h₂ :: rest) base r := funext fun r => ih h₂ r
    calc normalize_to_model_response (rfold_chain h (h₂ :: rest) req base)
        = normalize_to_model_response (h req
            (fun r => normalize_to_model_response (rfold_chain h₂ rest r base))) := rfl
      _ = normalize_to_model_response
            (h req (fun r => onion_chain (h₂ :: rest) base r)) := by rw [harg]
      _ = onion_chain (h :: h₂ :: rest) base req := rfl

/-- C3: Handler chain composition.  chain_model_call_handlers returns None for
the empty wrapper list; a raw assistant message is normalized to a
ModelResponse with that single message and no structured payload; and for
every non-empty ordered list of wrappers the composed handler equals the
outermost-first onion composition, so the first wrapper sees the request first
and the response last and every boundary crossing is normalized. -/
theorem chain_model_call_handlers_spec (Req M S : Type) :
    (chain_model_call_handlers ([] : List (ModelCallHandler Req M S)) = none)
    ∧ (∀ (m : M), normalize_to_model_response (.msg m)
        = ({ result := [m], structured_response := none } : ModelResponse M S))
    ∧ (∀ (h : ModelCallHandler Req M S) (t : List (ModelCallHandler Req M S)),
        chain_model_call_handlers (h :: t)
          = some (fun req base => onion_chain (h :: t) base req)) := by
  refine ⟨rfl, fun m => rfl, fun h t => ?_⟩
  cases t with
  | nil => rfl
  | cons h₂ rest =>
    show some _ = some _
    congr 1
    funext req base
    show normalize_to_model_response
      ((((h :: h₂ :: rest).dropLast).reverse.foldl (fun acc g => compose_two g acc)
        ((h :: h₂ :: rest).getLast (by simp))) req base) = _
    rw [foldl_eq_rfold_chain h (h₂ :: rest)]
    exact rfold_chain_eq_onion h (h₂ :: rest) req base

/-! ## Structured output handling
(src/src/app/domain/model/output_handler.py and
src/src/app/application/structured_output/error_handling.py) -/

/-- The structured-output exceptions the output handler can raise:
MultipleStructuredOutputsError (names of the offending calls) and
StructuredOutputValidationError (offending schema or tool name). -/
inductive SOError
  | multiple (tool_names : List String)
  | validation (name : String)
deriving Repr, DecidableEq

/-- The handle_errors union of a ToolStrategy: bool, literal string, exception
type or tuple of types (modelled as a predicate on the exception), or a
callable computing the message. -/
inductive HandleErrors
  | asBool (b : Bool)
  | asString (s : String)
  | matching (p : SOError → Bool)
  | custom (f : SOError → String)

/-- The slice of a ToolStrategy the output handler reads: its handle_errors
policy and optional custom tool message content. -/
structure ToolStrategy (S : Type) where
  handle_errors : HandleErrors
  tool_message_content : Option String

/-- The slice of a ProviderStrategy the output handler reads: the schema name
used in validation errors and the provider-native parser (external library
code, kept abstract as a function). -/
structure ProviderStrategy (S : Type) where
  schema_name : String
  parse : AIMsg → Option S

/-- The response-format union at invocation time (Auto is resolved earlier). -/
inductive ResponseFormat (S : Type)
  | provider (p : ProviderStrategy S)
  | tool (t : ToolStrategy S)

/-- A declared structured-output tool binding: parses raw call arguments
into a schema instance (external pydantic parsing kept abstract). -/
structure OutputToolBinding (S : Type) where
  parse : String → Option S

/-- Embeds STRUCTURED_OUTPUT_ERROR_TEMPLATE.format of
src/src/app/workflow/constants.py line 3. -/
def STRUCTURED_OUTPUT_ERROR_TEMPLATE (error : String) : String :=
  "Error: " ++ error ++ "\n Please fix your mistakes."

/-- Embeds `handle_structured_output_error`
(src/src/app/application/structured_output/error_handling.py lines 15-44).
`errStr` models the str() rendering of the exception. -/
def handle_structured_output_error {S : Type} (errStr : SOError → String)
    (exception : SOError) (response_format : ResponseFormat S) : Bool × String :=
  match response_format with
  | .provider _ => (false, "")
  | .tool ts =>
    match ts.handle_errors with
    | .asBool false => (false, "")
    | .asBool true => (true, STRUCTURED_OUTPUT_ERROR_TEMPLATE (errStr exception))
    | .asString s => (true, s)
    | .matching p =>
      if p exception then (true, STRUCTURED_OUTPUT_ERROR_TEMPLATE (errStr exception))
      else (false, "")
    | .custom f => (true, f exception)

/-- The tool calls of the model output whose names are declared
structured-output tools (output_handler.py lines 72-74). -/
def structured_tool_calls_of {S : Type}
    (structured_output_tools : List (String × OutputToolBinding S))
    (output : AIMsg) : List ToolCall :=
  output.tool_calls.filter (fun tc => (structured_output_tools.lookup tc.name).isSome)

/-- The dictionary returned by the output handler: messages plus the optional
structured_response key. -/
structure OutputResult (S : Type) where
  messages : List Message
  structured_response : Option S

/-- Embeds `handle_model_output` (src/src/app/domain/model/output_handler.py
lines 19-143).  `errStr` models str() of the raised library exception; `strOf`
models str() of the parsed schema instance used by the default message
template.  A raised exception is modelled as `Except.error`. -/
def handle_model_output {S : Type} (errStr : SOError → String) (strOf : S → String)
    (output : AIMsg) (effective_response_format : Option (ResponseFormat S))
    (structured_output_tools : List (String × OutputToolBinding S)) :
    Except SOError (OutputResult S) :=
  match effective_response_format with
  | some (.provider pb) =>
    if output.tool_calls = [] then
      match pb.parse output with
      | some structured_response => .ok ⟨[.ai output], some structured_response⟩
      | none => .error (.validation pb.schema_name)
    else .ok ⟨[.ai output], none⟩
  | some (.tool ts) =>
    if output.tool_calls ≠ [] then
      match structured_tool_calls_of structured_output_tools output with
      | [] => .ok ⟨[.ai output], none⟩
      | tc :: rest =>
        if rest ≠ [] then
          let exception := SOError.multiple ((tc :: rest).map (·.name))
          let retry := handle_structured_output_error errStr exception (.tool ts)
          if retry.1 = false then .error exception
          else
            .ok ⟨Message.ai output ::
              (tc :: rest).map (fun c => .tool ⟨retry.2, c.id, some c.name⟩), none⟩
        else
          match structured_output_tools.lookup tc.name with
          | some binding =>
            match binding.parse tc.args with
            | some structured_response =>
              let tool_message_content :=
                match ts.tool_message_content with
                | some s =>
                  if s = "" then "Returning structured response: " ++ strOf structured_response
                  else s
                | none => "Returning structured response: " ++ strOf structured_response
              .ok ⟨[.ai output, .tool ⟨tool_message_content, tc.id, some tc.name⟩],
                some structured_response⟩
            | none =>
              let exception := SOError.validation tc.name
              let retry := handle_structured_output_error errStr exception (.tool ts)
              if retry.1 = false then .error exception
              else .ok ⟨[.ai output, .tool ⟨retry.2, tc.id, some tc.name⟩], none⟩
          | none => .ok ⟨[.ai output], none⟩
    else .ok ⟨[.ai output], none⟩
  | none => .ok ⟨[.ai output], none⟩

/-- A tool call listed among the structured calls belongs to the output, so
the output has at least one tool call. -/
theorem tool_calls_ne_nil_of_structured {S : Type}
    (tools : List (String × OutputToolBinding S)) (output : AIMsg)
    (tc : ToolCall) (l : List ToolCall)
    (h : structured_tool_calls_of tools output = tc :: l) :
    output.tool_calls ≠ [] := by
  intro hnil
  unfold structured_tool_calls_of at h
  rw [hnil] at h
  exact absurd h (by simp)

/-- C4: Structured-output single-call happy path.  Under a ToolBased strategy,
when the model output contains exactly one tool call naming a declared
structured-output tool and its arguments parse successfully, the handler
returns exactly the assistant message followed by one synthetic tool-result
message (content: the configured tool_message_content when non-empty,
otherwise the templated returning-structured-response string), and a non-null
structured_response equal to the parsed instance. -/
theorem structured_output_single_call {S : Type}
    (errStr : SOError → String) (strOf : S → String) (output : AIMsg)
    (ts : ToolStrategy S) (tools : List (String × OutputToolBinding S))
    (tc : ToolCall) (b : OutputToolBinding S) (v : S)
    (hcalls : structured_tool_calls_of tools output = [tc])
    (hlookup : tools.lookup tc.name = some b)
    (hparse : b.parse tc.args = some v) :
    handle_model_output errStr strOf output (some (.tool ts)) tools
      = .ok ⟨[.ai output,
          .tool ⟨(match ts.tool_message_content with
            | some s => if s = "" then "Returning structured response: " ++ strOf v else s
            | none => "Returning structured response: " ++ strOf v),
            tc.id, some tc.name⟩],
          some v⟩ := by
  have hne := tool_calls_ne_nil_of_structured tools output tc [] hcalls
  unfold handle_model_output
  rw [hcalls]
  simp [hne, hlookup, hparse]

/-- Witness for C4 at a concrete model turn with one matching call. -/
theorem structured_output_single_call_witness :
    handle_model_output (S := Nat) (fun _ => "boom") (fun _ => "7")
        ⟨"", [⟨"fmt", "c1", "7"⟩]⟩
        (some (.tool ⟨.asBool true, none⟩))
        [("fmt", ⟨fun s => if s = "7" then some 7 else none⟩)]
      = .ok ⟨[.ai ⟨"", [⟨"fmt", "c1", "7"⟩]⟩,
          .tool ⟨"Returning structured response: 7", "c1", some "fmt"⟩],
          some 7⟩ :=
  structured_output_single_call (fun _ => "boom") (fun _ => "7")
    ⟨"", [⟨"fmt", "c1", "7"⟩]⟩ ⟨.asBool true, none⟩
    [("fmt", ⟨fun s => if s = "7" then some 7 else none⟩)]
    ⟨"fmt", "c1", "7"⟩ ⟨fun s => if s = "7" then some 7 else none⟩ 7
    (by decide) (by simp) (by decide)

/-- C5: Structured-output ambiguity.  With two tool calls naming declared
structured-output tools, handle_errors = True returns the assistant message
plus exactly two synthetic error tool-messages (one per offending call, each
addressed to that call id) and no structured_response, without raising; the
same input with handle_errors = False raises MultipleStructuredOutputsError. -/
theorem structured_output_ambiguity {S : Type}
    (errStr : SOError → String) (strOf : S → String) (output : AIMsg)
    (tools : List (String × OutputToolBinding S))
    (tc₁ tc₂ : ToolCall) (tmc : Option String)
    (hcalls : structured_tool_calls_of tools output = [tc₁, tc₂]) :
    (handle_model_output errStr strOf output
        (some (.tool ⟨.asBool true, tmc⟩)) tools
      = .ok ⟨[Message.ai output,
          .tool ⟨STRUCTURED_OUTPUT_ERROR_TEMPLATE
            (errStr (.multiple [tc₁.name, tc₂.name])), tc₁.id, some tc₁.name⟩,
          .tool ⟨STRUCTURED_OUTPUT_ERROR_TEMPLATE
            (errStr (.multiple [tc₁.name, tc₂.name])), tc₂.id, some tc₂.name⟩],
          none⟩)
    ∧ (handle_model_output errStr strOf output
        (some (.tool ⟨.asBool false, tmc⟩)) tools
      = .error (.multiple [tc₁.name, tc₂.name])) := by
  have hne := tool_calls_ne_nil_of_structured tools output tc₁ [tc₂] hcalls
  constructor
  · unfold handle_model_output
    rw [hcalls]
    simp [hne, handle_structured_output_error]
  · unfold handle_model_output
    rw [hcalls]
    simp [hne, handle_structured_output_error]

/-- Witness for C5 at a concrete turn with two matching calls. -/
theorem structured_output_ambiguity_witness :
    (handle_model_output (S := Nat) (fun _ => "boom") toString
        ⟨"", [⟨"fmt", "c1", "x"⟩, ⟨"fmt", "c2", "y"⟩]⟩
        (some (.tool ⟨.asBool true, none⟩))
        [("fmt", ⟨fun _ => none⟩)]
      = .ok ⟨[.ai ⟨"", [⟨"fmt", "c1", "x"⟩, ⟨"fmt", "c2", "y"⟩]⟩,
          .tool ⟨"Error: boom\n Please fix your mistakes.", "c1", some "fmt"⟩,
          .tool ⟨"Error: boom\n Please fix your mistakes.", "c2", some "fmt"⟩],
          none⟩)
    ∧ (handle_model_output (S := Nat) (fun _ => "boom") toString
        ⟨"", [⟨"fmt", "c1", "x"⟩, ⟨"fmt", "c2", "y"⟩]⟩
        (some (.tool ⟨.asBool false, none⟩))
        [("fmt", ⟨fun _ => none⟩)]
      = .error (.multiple ["fmt", "fmt"])) :=
  structured_output_ambiguity (fun _ => "boom") toString
    ⟨"", [⟨"fmt", "c1", "x"⟩, ⟨"fmt", "c2", "y"⟩]⟩
    [("fmt", ⟨fun _ => none⟩)]
    ⟨"fmt", "c1", "x"⟩ ⟨"fmt", "c2", "y"⟩ none
    (by decide)

/-! ## Schema resolution (src/src/app/workflow/schema_utils.py) -/

/-- Annotation metadata attached to a schema field: OmitFromSchema with its
input/output flags, or any other metadata object. -/
inductive SchemaMeta
  | omitFromSchema (input : Bool) (output : Bool)
  | otherMeta
deriving Repr, DecidableEq

/-- The shape of a field type hint as inspected by `_extract_metadata`: a
plain type, Annotated with metadata, or a Required/NotRequired wrapper. -/
inductive FieldType
  | plain (ty : String)
  | annotated (ty : String) (metadata : List SchemaMeta)
  | required (inner : FieldType)
  | notRequired (inner : FieldType)
deriving Repr, DecidableEq

/-- Embeds `_extract_metadata` (schema_utils.py lines 60-72): unwrap one
Required/NotRequired layer, then read Annotated metadata; anything else gives
no metadata. -/
def _extract_metadata : FieldType → List SchemaMeta
  | .required inner =>
    match inner with
    | .annotated _ md => md
    | _ => []
  | .notRequired inner =>
    match inner with
    | .annotated _ md => md
    | _ => []
  | .annotated _ md => md
  | .plain _ => []

/-- The omit flag argument of `_resolve_schema` (the strings input and
output; absence of a flag is none). -/
inductive OmitFlag
  | input
  | output
deriving Repr, DecidableEq

/-- The should_omit loop of `_resolve_schema` (schema_utils.py lines 41-52):
a field is omitted when any OmitFromSchema metadata entry has the requested
flag set. -/
def should_omit (omit_flag : Option OmitFlag) (field_type : FieldType) : Bool :=
  match omit_flag with
  | none => false
  | some flag =>
    (_extract_metadata field_type).any (fun m =>
      match m, flag with
      | .omitFromSchema i _, .input => i
      | .omitFromSchema _ o, .output => o
      | .otherMeta, _ => false)

/-- Python dict assignment on the accumulated annotations: overwriting keeps
the original key position, a fresh key is appended. -/
def dict_insert (d : List (String × FieldType)) (k : String) (v : FieldType) :
    List (String × FieldType) :=
  if d.any (fun p => p.1 == k) then
    d.map (fun p => if p.1 == k then (k, v) else p)
  else d ++ [(k, v)]

/-- One step of the annotation accumulation in `_resolve_schema`. -/
def resolve_step (omit_flag : Option OmitFlag) (acc : List (String × FieldType))
    (fld : String × FieldType) : List (String × FieldType) :=
  if should_omit omit_flag fld.2 then acc else dict_insert acc fld.1 fld.2

/-- Embeds `_resolve_schema` (schema_utils.py lines 22-57): iterate over the
schemas, merge their field annotations by name into one dict, skipping fields
omitted for the requested flag.  A schema is its ordered list of type hints;
the TypedDict produced by the source is represented by the merged annotation
list (schema_name only names it). -/
def _resolve_schema (schemas : List (List (String × FieldType)))
    (schema_name : String) (omit_flag : Option OmitFlag) :
    List (String × FieldType) :=
  let _ := schema_name
  schemas.foldl (fun all_annotations schema =>
    schema.foldl (resolve_step omit_flag) all_annotations) []

/-- Nested per-schema folding equals folding over the flattened field list. -/
theorem foldl_schemas_eq_flatten (f : List (String × FieldType) →
      (String × FieldType) → List (String × FieldType))
    (schemas : List (List (String × FieldType))) (acc : List (String × FieldType)) :
    schemas.foldl (fun a s => s.foldl f a) acc = (schemas.flatMap id).foldl f acc := by
  induction schemas generalizing acc with
  | nil => rfl
  | cons s rest ih => simp [List.foldl_append, ih]

/-- Inserting a fresh key appends it. -/
theorem dict_insert_fresh (acc : List (String × FieldType)) (k : String)
    (v : FieldType) (h : ∀ q ∈ acc, q.1 ≠ k) :
    dict_insert acc k v = acc ++ [(k, v)] := by
  unfold dict_insert
  rw [if_neg]
  simp only [List.any_eq_true, beq_iff_eq, not_exists]
  intro p hp
  exact h p hp.1 hp.2

/-- The inserted key is present afterwards. -/
theorem mem_keys_dict_insert_self (acc : List (String × FieldType)) (k : String)
    (v : FieldType) : k ∈ (dict_insert acc k v).map Prod.fst := by
  unfold dict_insert
  split
  next h =>
    simp only [List.any_eq_true, beq_iff_eq] at h
    obtain ⟨p, hp, hpk⟩ := h
    rw [List.map_map]
    refine List.mem_map.mpr ⟨p, hp, ?_⟩
    simp [hpk]
  next => simp

/-- Insertion preserves all existing keys. -/
theorem mem_keys_dict_insert_mono (acc : List (String × FieldType)) (k : String)
    (v : FieldType) (x : String) (hx : x ∈ acc.map Prod.fst) :
    x ∈ (dict_insert acc k v).map Prod.fst := by
  unfold dict_insert
  split
  · obtain ⟨p, hp, hpx⟩ := List.mem_map.mp hx
    refine List.mem_map.mpr
      ⟨(if p.1 == k then (k, v) else p), List.mem_map_of_mem _ hp, ?_⟩
    by_cases hkx : p.1 = k
    · rw [if_pos (by simp [hkx])]
      exact hkx ▸ hpx
    · rw [if_neg (by simp [hkx])]
      exact hpx
  · simp only [List.map_append]
    exact List.mem_append_left _ hx

/-- With no omit flag every declared field name survives the fold, even when
names collide across schemas. -/
theorem mem_keys_foldl_resolve_none (fields : List (String × FieldType))
    (acc : List (String × FieldType)) (k : String)
    (h : k ∈ acc.map Prod.fst ∨ ∃ f ∈ fields, f.1 = k) :
    k ∈ (fields.foldl (resolve_step none) acc).map Prod.fst := by
  induction fields generalizing acc with
  | nil =>
    rcases h with h | ⟨f, hf, _⟩
    · exact h
    · exact absurd hf (by simp)
  | cons f rest ih =>
    have hstep : resolve_step none acc f = dict_insert acc f.1 f.2 := rfl
    rw [List.foldl_cons, hstep]
    rcases h with h | ⟨g, hg, hgk⟩
    · exact ih _ (Or.inl (mem_keys_dict_insert_mono acc f.1 f.2 k h))
    · rcases List.mem_cons.mp hg with rfl | hg'
      · exact ih _ (Or.inl (hgk ▸ mem_keys_dict_insert_self acc g.1 g.2))
      · exact ih _ (Or.inr ⟨g, hg', hgk⟩)

/-- When the processed field names are distinct and fresh relative to the
accumulator, the fold appends exactly the non-omitted fields in order. -/
theorem foldl_resolve_fresh (omit_flag : Option OmitFlag)
    (fields acc : List (String × FieldType))
    (hdisj : ∀ p ∈ fields, ∀ q ∈ acc, p.1 ≠ q.1)
    (hnd : (fields.map Prod.fst).Nodup) :
    fields.foldl (resolve_step omit_flag) acc
      = acc ++ fields.filter (fun f => !should_omit omit_flag f.2) := by
  induction fields generalizing acc with
  | nil => simp
  | cons f rest ih =>
    simp only [List.map_cons, List.nodup_cons] at hnd
    rw [List.foldl_cons]
    by_cases hom : should_omit omit_flag f.2
    · have hstep : resolve_step omit_flag acc f = acc := by
        simp [resolve_step, hom]
      rw [hstep, ih acc (fun p hp q hq => hdisj p (by simp [hp]) q hq) hnd.2]
      simp [hom]
    · have hstep : resolve_step omit_flag acc f = acc ++ [(f.1, f.2)] := by
        simp only [resolve_step, hom, if_false, Bool.false_eq_true]
        exact dict_insert_fresh acc f.1 f.2
          (fun q hq => (hdisj f (by simp) q hq).symm)
      rw [hstep, ih (acc ++ [(f.1, f.2)])]
      · simp [hom]
      · intro p hp q hq
        rcases List.mem_append.mp hq with hq' | hq'
        · exact hdisj p (by simp [hp]) q hq'
        · have hqf : q = (f.1, f.2) := by simpa using hq'
          subst hqf
          intro hpq
          exact hnd.1 (hpq ▸ List.mem_map_of_mem Prod.fst hp)
      · exact hnd.2

/-- Members of a list with pairwise-distinct keys are determined by their
key. -/
theorem eq_of_mem_of_nodup_keys {l : List (String × FieldType)}
    (h : (l.map Prod.fst).Nodup) {a b : String × FieldType}
    (ha : a ∈ l) (hb : b ∈ l) (hk : a.1 = b.1) : a = b := by
  induction l with
  | nil => exact absurd ha (by simp)
  | cons c rest ih =>
    simp only [List.map_cons, List.nodup_cons] at h
    rcases List.mem_cons.mp ha with rfl | ha' <;>
      rcases List.mem_cons.mp hb with rfl | hb'
    · rfl
    · exact absurd (hk ▸ List.mem_map_of_mem Prod.fst hb') h.1
    · exact absurd (hk ▸ List.mem_map_of_mem Prod.fst ha') (by
        intro hc
        exact h.1 (by simpa [← hk] using List.mem_map_of_mem Prod.fst ha'))
    · exact ih h.2 ha' hb'

/-- Under pairwise-distinct field names, schema resolution is the filtered
flattened field list. -/
theorem resolve_schema_eq_filter (schemas : List (List (String × FieldType)))
    (schema_name : String) (omit_flag : Option OmitFlag)
    (hnd : ((schemas.flatMap id).map Prod.fst).Nodup) :
    _resolve_schema schemas schema_name omit_flag
      = (schemas.flatMap id).filter (fun f => !should_omit omit_flag f.2) := by
  unfold _resolve_schema
  rw [foldl_schemas_eq_flatten, foldl_resolve_fresh omit_flag _ []
    (by intro p _ q hq; exact absurd hq (by simp)) hnd]
  simp

/-- C6: Schema merge is a union and omission is respected.  With pairwise
disjoint field names the merged schema (no omit flag) is exactly the union of
all declared fields; every declared field name survives the merge even with
name collisions (no error is raised); and a field marked omitted for input is
absent from the input variant yet present in the unrestricted variant,
symmetrically for output. -/
theorem schema_merge_union_and_omission
    (schemas : List (List (String × FieldType))) (schema_name : String)
    (hnd : ((schemas.flatMap id).map Prod.fst).Nodup) :
    (_resolve_schema schemas schema_name none = schemas.flatMap id)
    ∧ (∀ (schemas₂ : List (List (String × FieldType))) (name₂ : String)
        (k : String), (∃ s ∈ schemas₂, ∃ f ∈ s, f.1 = k) →
        k ∈ (_resolve_schema schemas₂ name₂ none).map Prod.fst)
    ∧ (∀ s ∈ schemas, ∀ f ∈ s, ∀ flag : OmitFlag,
        should_omit (some flag) f.2 = true →
        f.1 ∉ (_resolve_schema schemas schema_name (some flag)).map Prod.fst
        ∧ f.1 ∈ (_resolve_schema schemas schema_name none).map Prod.fst) := by
  have hfilter : (fun f : String × FieldType => !should_omit none f.2)
      = fun _ => true := by
    funext f
    simp [should_omit]
  refine ⟨?_, ?_, ?_⟩
  · rw [resolve_schema_eq_filter schemas schema_name none hnd, hfilter,
      List.filter_true]
  · intro schemas₂ name₂ k ⟨s, hs, f, hf, hfk⟩
    unfold _resolve_schema
    rw [foldl_schemas_eq_flatten]
    exact mem_keys_foldl_resolve_none _ [] k
      (Or.inr ⟨f, List.mem_flatMap.mpr ⟨s, hs, by simpa using hf⟩, hfk⟩)
  · intro s hs f hf flag hflag
    have hmem : f ∈ schemas.flatMap id := List.mem_flatMap.mpr ⟨s, hs, by simpa using hf⟩
    constructor
    · rw [resolve_schema_eq_filter schemas schema_name (some flag) hnd]
      intro hk
      obtain ⟨g, hg, hgk⟩ := List.mem_map.mp hk
      have hgmem := List.mem_filter.mp hg
      have : g = f := eq_of_mem_of_nodup_keys hnd hgmem.1 hmem hgk
      subst this
      rw [hflag] at hgmem
      exact absurd hgmem.2 (by simp)
    · rw [resolve_schema_eq_filter schemas schema_name none hnd, hfilter,
        List.filter_true]
      exact List.mem_map_of_mem Prod.fst hmem

/-- Witness for C6: two middleware schemas with disjoint fields, one field
marked omit-for-input; the merged schema is the union of both. -/
theorem schema_merge_union_and_omission_witness :
    _resolve_schema
        [[("messages", .plain "list")],
         [("todos", .required (.annotated "list" [.omitFromSchema true false]))]]
        "AgentState" none
      = [("messages", .plain "list"),
         ("todos", .required (.annotated "list" [.omitFromSchema true false]))] :=
  (schema_merge_union_and_omission
    [[("messages", .plain "list")],
     [("todos", .required (.annotated "list" [.omitFromSchema true false]))]]
    "AgentState" (by decide)).1

/-! ## Filesystem middleware large-result eviction
(src/src/app/application/middleware/filesystem_middleware.py and
src/src/app/infrastructure/storage/utils.py) -/

/-- Python str.replace for a single-character pattern (executable character
map, used to model the three replace calls of sanitize_tool_call_id). -/
def str_replace_char (s : String) (old_char new_char : Char) : String :=
  String.mk (s.toList.map (fun c => if c = old_char then new_char else c))

/-- Embeds `sanitize_tool_call_id` (storage/utils.py lines 24-27): dots,
slashes and backslashes become underscores. -/
def sanitize_tool_call_id (tool_call_id : String) : String :=
  str_replace_char (str_replace_char (str_replace_char tool_call_id '.' '_')
    '/' '_') '\\' '_'

/-- Accumulator pass for splitlines: emit the current line on each newline,
and the final partial line only when non-empty. -/
def splitlines_aux : List Char → List Char → List String
  | acc, [] => if acc.isEmpty then [] else [String.mk acc.reverse]
  | acc, c :: rest =>
    if c = '\n' then String.mk acc.reverse :: splitlines_aux [] rest
    else splitlines_aux (c :: acc) rest

/-- Python str.splitlines restricted to newline boundaries: the empty string
gives no lines and a trailing newline produces no trailing empty line. -/
def splitlines (s : String) : List String :=
  splitlines_aux [] s.toList

/-- Right-aligned padding to a width, as Python format with a width does. -/
def pad_left (s : String) (w : Nat) : String :=
  String.mk (List.replicate (w - s.length) ' ') ++ s

/-- Splitting one long line into MAX_LINE_LENGTH-char chunks
(storage/utils.py lines 50-54). -/
def chunk_line (l : List Char) : List (List Char) :=
  if _hne : l = [] then []
  else l.take 10000 :: chunk_line (l.drop 10000)
termination_by l.length
decreasing_by
  have hlen : l.length ≠ 0 := fun hzero => _hne (List.eq_nil_of_length_eq_zero hzero)
  simp only [List.length_drop]
  omega

/-- Embeds `format_content_with_line_numbers` (storage/utils.py lines 30-65)
for a list of lines: each line is prefixed with its width-6 right-aligned
number and a tab; lines longer than MAX_LINE_LENGTH = 10000 are split into
chunks with decimal continuation markers. -/
def format_content_with_line_numbers (lines : List String) (start_line : Nat) :
    String :=
  String.intercalate "\n"
    (lines.enum.flatMap (fun p =>
      let line_num := p.1 + start_line
      let line := p.2
      if line.length ≤ 10000 then
        [pad_left (toString line_num) 6 ++ "\t" ++ line]
      else
        (chunk_line line.toList).enum.map (fun q =>
          if q.1 = 0 then
            pad_left (toString line_num) 6 ++ "\t" ++ String.mk q.2
          else
            pad_left (toString line_num ++ "." ++ toString q.1) 6 ++ "\t"
              ++ String.mk q.2)))

/-- Embeds the TOO_LARGE_TOOL_MSG template of filesystem_middleware.py
lines 33-40, applied to its three placeholders. -/
def TOO_LARGE_TOOL_MSG (tool_call_id file_path content_sample : String) : String :=
  "Tool result too large, the result of this tool call " ++ tool_call_id
    ++ " was saved in the filesystem at this path: " ++ file_path
    ++ "\nYou can read the result from the filesystem by using the read_file tool, but make sure to only read part of the result at a time.\nYou can do this by specifying an offset and limit in the read_file tool call.\nFor example, to read the first 100 lines, you can use the read_file tool with offset=0 and limit=100.\n\nHere are the first 10 lines of the result:\n"
    ++ content_sample ++ "\n"

/-- Result of a backend write (domain/storage/types.py WriteResult): an
optional error and an optional state files update, generic in the update
payload. -/
structure WriteResult (υ : Type) where
  error : Option String
  files_update : Option υ

/-- Embeds `FilesystemMiddleware._process_large_message`
(filesystem_middleware.py lines 186-215) for string content: small content is
returned unchanged; otherwise the content is written to the deterministic
sanitized path and the message is replaced by the pointer message with a
10-line preview, each line capped at 1000 characters.  A write error leaves
the message unchanged. -/
def _process_large_message {υ : Type} (tool_token_limit_before_evict : Nat)
    (write : String → String → WriteResult υ) (message : ToolMsg) :
    ToolMsg × Option υ :=
  if message.content.length ≤ 4 * tool_token_limit_before_evict then (message, none)
  else
    match (write ("/large_tool_results/" ++ sanitize_tool_call_id message.tool_call_id)
        message.content).error with
    | some _ => (message, none)
    | none =>
      (⟨TOO_LARGE_TOOL_MSG message.tool_call_id
          ("/large_tool_results/" ++ sanitize_tool_call_id message.tool_call_id)
          (format_content_with_line_numbers
            (((splitlines message.content).take 10).map (fun line => line.take 1000)) 1),
        message.tool_call_id, none⟩,
       (write ("/large_tool_results/" ++ sanitize_tool_call_id message.tool_call_id)
          message.content).files_update)

/-- Result of intercepting a tool result: the (possibly replaced) tool message
itself, or a Command carrying the files update together with the replaced
message. -/
inductive InterceptResult (υ : Type)
  | message (m : ToolMsg)
  | command (files : υ) (messages : List ToolMsg)

/-- Embeds the ToolMessage-with-string-content branch of
`FilesystemMiddleware._intercept_large_tool_result`
(filesystem_middleware.py lines 217-243).  Python truthiness of the limit: a
missing limit or limit 0 disables eviction, as does content at or below
4 * limit characters.  When a files update is produced the result is wrapped
in a Command, else the processed message is returned directly. -/
def _intercept_large_tool_result {υ : Type} (tool_token_limit_before_evict : Option Nat)
    (write : String → String → WriteResult υ) (tool_result : ToolMsg) :
    InterceptResult υ :=
  match tool_token_limit_before_evict with
  | none => .message tool_result
  | some l =>
    if l = 0 ∨ tool_result.content.length ≤ 4 * l then .message tool_result
    else
      match _process_large_message l write tool_result with
      | (processed_message, some fu) => .command fu [processed_message]
      | (processed_message, none) => .message processed_message

/-- C7: Large tool-result eviction.  With a positive configured limit, a tool
message whose string content is strictly longer than 4 times the limit and
whose backend write succeeds is replaced by the pointer message referencing
/large_tool_results/ followed by the sanitized tool-call id and containing
the preview of the first 10 lines truncated to 1000 characters each (wrapped
in a Command exactly when the write returns a files update); content at or
below the threshold is returned unchanged. -/
theorem large_tool_result_eviction {υ : Type} (l : Nat)
    (write : String → String → WriteResult υ) (m : ToolMsg) (hl : 0 < l) :
    (4 * l < m.content.length →
      (write ("/large_tool_results/" ++ sanitize_tool_call_id m.tool_call_id)
          m.content).error = none →
      _intercept_large_tool_result (some l) write m
        = (match (write ("/large_tool_results/"
              ++ sanitize_tool_call_id m.tool_call_id) m.content).files_update with
          | some fu => .command fu
              [⟨TOO_LARGE_TOOL_MSG m.tool_call_id
                  ("/large_tool_results/" ++ sanitize_tool_call_id m.tool_call_id)
                  (format_content_with_line_numbers
                    (((splitlines m.content).take 10).map (fun line => line.take 1000)) 1),
                m.tool_call_id, none⟩]
          | none => .message
              ⟨TOO_LARGE_TOOL_MSG m.tool_call_id
                  ("/large_tool_results/" ++ sanitize_tool_call_id m.tool_call_id)
                  (format_content_with_line_numbers
                    (((splitlines m.content).take 10).map (fun line => line.take 1000)) 1),
                m.tool_call_id, none⟩))
    ∧ (m.content.length ≤ 4 * l →
      _intercept_large_tool_result (some l) write m = .message m) := by
  have hsome : ∀ (tr : ToolMsg),
      _intercept_large_tool_result (some l) write tr
        = if l = 0 ∨ tr.content.length ≤ 4 * l then .message tr
          else match _process_large_message l write tr with
            | (pm, some fu) => .command fu [pm]
            | (pm, none) => .message pm := fun _ => rfl
  constructor
  · intro hbig herr
    have hcond : ¬(l = 0 ∨ m.content.length ≤ 4 * l) := by omega
    rw [hsome m, if_neg hcond]
    unfold _process_large_message
    rw [if_neg (by omega), herr]
    cases hfu : (write ("/large_tool_results/"
        ++ sanitize_tool_call_id m.tool_call_id) m.content).files_update <;>
      simp [hfu]
  · intro hsmall
    rw [hsome m, if_pos (Or.inr hsmall)]

/-- Witness for C7: a five-character result with limit 1 is evicted to the
sanitized path and replaced with the pointer message; the same message with
limit 2 is returned unchanged. -/
theorem large_tool_result_eviction_witness :
    (4 * 1 < ("abcde" : String).length
      ∧ sanitize_tool_call_id "call.1" = "call_1"
      ∧ _intercept_large_tool_result (some 1)
          (fun _ _ => ⟨none, (none : Option Unit)⟩) ⟨"abcde", "call.1", some "big"⟩
        = .message ⟨TOO_LARGE_TOOL_MSG "call.1"
            ("/large_tool_results/" ++ sanitize_tool_call_id "call.1")
            (format_content_with_line_numbers
              (((splitlines "abcde").take 10).map (fun line => line.take 1000)) 1),
            "call.1", none⟩)
    ∧ _intercept_large_tool_result (some 2)
        (fun _ _ => ⟨none, (none : Option Unit)⟩) ⟨"abcde", "call.1", some "big"⟩
      = .message ⟨"abcde", "call.1", some "big"⟩ :=
  ⟨⟨by decide, rfl,
    (large_tool_result_eviction 1 (fun _ _ => ⟨none, (none : Option Unit)⟩)
      ⟨"abcde", "call.1", some "big"⟩ (by decide)).1 (by decide) rfl⟩,
   (large_tool_result_eviction 2 (fun _ _ => ⟨none, (none : Option Unit)⟩)
      ⟨"abcde", "call.1", some "big"⟩ (by decide)).2 (by decide)⟩

/-! ## Unified interrupt/resume streaming protocol
(src/src/workflow/chat_runner.py and
src/src/app/workflow/utils/process_values_event.py) -/

/-- An interrupt object surfaced under the reserved state key, with the
attributes the stream processors read (id, value, resumable, ns). -/
structure Interrupt where
  id : String
  value : String
  resumable : Bool
  ns : List String
deriving Repr, DecidableEq

/-- A value stored under a top-level state key: the reserved interrupt key may
hold a list/tuple of interrupts; every other shape is opaque. -/
inductive StateVal
  | interruptList (interrupts : List Interrupt)
  | otherVal
deriving Repr, DecidableEq

/-- A chunk from the values channel: a dict of top-level state entries, or a
non-dict value. -/
inductive ValuesChunk
  | dict (entries : List (String × StateVal))
  | nonDict
deriving Repr, DecidableEq

/-- The metadata attached to a token chunk on the messages channel. -/
structure TokenMeta where
  node : Option String
  step : Option Nat
  tags : List String
deriving Repr, DecidableEq

/-- A chunk from the messages channel: a (token, metadata) pair whose token
content may be missing or empty, or a malformed chunk. -/
inductive MessagesChunk
  | pair (content : Option String) (meta : TokenMeta)
  | malformed
deriving Repr, DecidableEq

/-- One (event_type, chunk) pair produced by the multi-mode graph stream. -/
inductive StreamItem
  | messagesEvent (c : MessagesChunk)
  | valuesEvent (c : ValuesChunk)
  | customEvent (content : String)
deriving Repr, DecidableEq

/-- A Python exception as the stream consumers see it: str(e) and
type(e).__name__. -/
structure PyException where
  msg : String
  type_name : String
deriving Repr, DecidableEq

/-- One step of the underlying async stream: it yields an item or raises. -/
inductive StreamStep
  | item (it : StreamItem)
  | raised (e : PyException)
deriving Repr, DecidableEq

/-- The typed events of the unified stream.  ai_token carries the resumed flag
(absent, modelled false, for first runs; true after a resume) and the optional
tags list (absent in resume token metadata); interrupt_detected carries the
optional namespace field (absent in resume interrupt events). -/
inductive StreamEvent
  | ai_token (content : String) (thread_id : String) (node : Option String)
      (step : Option Nat) (tags : Option (List String)) (resumed : Bool)
  | interrupt_detected (interrupt_id : String) (thread_id : String)
      (question_data : String) (resumable : Bool) (ns : Option (List String))
  | state_update (thread_id : String) (state_keys : List String)
      (has_interrupt : Bool)
  | question_token (content : String) (thread_id : String)
  | error (thread_id : String) (error_msg : String) (error_type : String)
deriving Repr, DecidableEq

/-- Embeds the values branch of `ChatRunner.unified_stream`
(chat_runner.py lines 121-145): one interrupt_detected event per interrupt
when the reserved key holds a list, then a state_update event listing the
top-level keys and whether an interrupt is present, for every dict chunk. -/
def unified_values_events (thread_id : String) (chunk : ValuesChunk) :
    List StreamEvent :=
  match chunk with
  | .nonDict => []
  | .dict entries =>
    (match entries.lookup "__interrupt__" with
     | some (.interruptList interrupts) =>
       interrupts.map (fun i =>
         .interrupt_detected i.id thread_id i.value i.resumable (some i.ns))
     | _ => [])
    ++ [.state_update thread_id (entries.map (·.1))
          (entries.lookup "__interrupt__").isSome]

/-- Embeds the messages branch of `ChatRunner.unified_stream`
(chat_runner.py lines 105-119): an ai_token event for every token pair whose
content is present and non-empty. -/
def unified_messages_events (thread_id : String) (c : MessagesChunk) :
    List StreamEvent :=
  match c with
  | .malformed => []
  | .pair content meta =>
    match content with
    | some s =>
      if s = "" then []
      else [.ai_token s thread_id meta.node meta.step (some meta.tags) false]
    | none => []

/-- Per-item dispatch of `ChatRunner.unified_stream` over the three stream
modes (chat_runner.py lines 104-153). -/
def process_stream_item (thread_id : String) : StreamItem → List StreamEvent
  | .messagesEvent c => unified_messages_events thread_id c
  | .valuesEvent c => unified_values_events thread_id c
  | .customEvent content => [.question_token content thread_id]

/-- Embeds the try/except streaming loop of `ChatRunner.unified_stream`
(chat_runner.py lines 96-162): items are processed in order until the
underlying stream raises, at which point a single terminal error event
carrying str(e) and the exception type name is yielded and the loop ends. -/
def unified_stream (thread_id : String) : List StreamStep → List StreamEvent
  | [] => []
  | .item it :: rest =>
    process_stream_item thread_id it ++ unified_stream thread_id rest
  | .raised e :: _ => [.error thread_id e.msg e.type_name]

/-- Embeds the messages branch of `ChatRunner.resume_interrupt`
(chat_runner.py lines 193-206): like the first-run branch, but the event
carries resumed = true and its metadata has no tags field. -/
def resume_messages_events (thread_id : String) (c : MessagesChunk) :
    List StreamEvent :=
  match c with
  | .malformed => []
  | .pair content meta =>
    match content with
    | some s =>
      if s = "" then []
      else [.ai_token s thread_id meta.node meta.step none true]
    | none => []

/-- Embeds the values branch of `ChatRunner.resume_interrupt`
(chat_runner.py lines 208-219): interrupt events only (without the namespace
field), and no generic state_update event. -/
def resume_values_events (thread_id : String) (chunk : ValuesChunk) :
    List StreamEvent :=
  match chunk with
  | .nonDict => []
  | .dict entries =>
    match entries.lookup "__interrupt__" with
    | some (.interruptList interrupts) =>
      interrupts.map (fun i =>
        .interrupt_detected i.id thread_id i.value i.resumable none)
    | _ => []

/-- Per-item dispatch of `ChatRunner.resume_interrupt`. -/
def process_resume_item (thread_id : String) : StreamItem → List StreamEvent
  | .messagesEvent c => resume_messages_events thread_id c
  | .valuesEvent c => resume_values_events thread_id c
  | .customEvent content => [.question_token content thread_id]

/-- Embeds the try/except streaming loop of `ChatRunner.resume_interrupt`
(chat_runner.py lines 185-234); its terminal error event prefixes the message
with Resume failed. -/
def resume_interrupt_stream (thread_id : String) :
    List StreamStep → List StreamEvent
  | [] => []
  | .item it :: rest =>
    process_resume_item thread_id it ++ resume_interrupt_stream thread_id rest
  | .raised e :: _ =>
    [.error thread_id ("Resume failed: " ++ e.msg) e.type_name]

/-- Embeds `process_values_event`
(src/src/app/workflow/utils/process_values_event.py lines 7-37) with
`process_interrupt` (process_interrupt.py lines 5-22) inlined: the same
per-chunk event derivation used by the refactored runner. -/
def process_values_event (thread_id : String) (chunk : ValuesChunk) :
    List StreamEvent :=
  match chunk with
  | .nonDict => []
  | .dict entries =>
    (match entries.lookup "__interrupt__" with
     | some (.interruptList interrupts) =>
       interrupts.map (fun i =>
         .interrupt_detected i.id thread_id i.value i.resumable (some i.ns))
     | _ => [])
    ++ [.state_update thread_id (entries.map (·.1))
          (entries.lookup "__interrupt__").isSome]

/-- C8: Interrupt events precede the state summary.  For every dict-shaped
state chunk containing the reserved interrupt key with a list of interrupts,
the values-channel processing emits one interrupt_detected event per interrupt
(id, payload, resumability, namespace) followed by - hence strictly before -
the single generic state_update event, which lists the top-level state keys
and the interrupt presence flag; every dict chunk gets a state_update event,
and process_values_event agrees with the unified-stream branch. -/
theorem interrupt_events_precede_state_update (thread_id : String)
    (entries : List (String × StateVal)) :
    (∀ interrupts,
      entries.lookup "__interrupt__" = some (.interruptList interrupts) →
      unified_values_events thread_id (.dict entries)
        = interrupts.map (fun i =>
            .interrupt_detected i.id thread_id i.value i.resumable (some i.ns))
          ++ [.state_update thread_id (entries.map (·.1)) true])
    ∧ (∀ chunk, process_values_event thread_id chunk
        = unified_values_events thread_id chunk)
    ∧ (unified_values_events thread_id (.dict entries)
        = (match entries.lookup "__interrupt__" with
           | some (.interruptList interrupts) =>
             interrupts.map (fun i =>
               .interrupt_detected i.id thread_id i.value i.resumable (some i.ns))
           | _ => [])
          ++ [.state_update thread_id (entries.map (·.1))
                (entries.lookup "__interrupt__").isSome]) := by
  refine ⟨?_, ?_, rfl⟩
  · intro interrupts hlook
    have hshape : unified_values_events thread_id (.dict entries)
        = (match entries.lookup "__interrupt__" with
           | some (.interruptList l) =>
             l.map (fun i =>
               StreamEvent.interrupt_detected i.id thread_id i.value i.resumable
                 (some i.ns))
           | _ => [])
          ++ [.state_update thread_id (entries.map (·.1))
                (entries.lookup "__interrupt__").isSome] := rfl
    rw [hshape, hlook]
    rfl
  · intro chunk
    cases chunk <;> rfl

/-- Witness for C8 at a concrete state chunk with one pending interrupt. -/
theorem interrupt_events_precede_state_update_witness :
    unified_values_events "t1"
        (.dict [("__interrupt__",
                  .interruptList [⟨"i1", "approve?", true, ["tools"]⟩]),
                ("messages", .otherVal)])
      = [.interrupt_detected "i1" "t1" "approve?" true (some ["tools"]),
         .state_update "t1" ["__interrupt__", "messages"] true] :=
  (interrupt_events_precede_state_update "t1"
      [("__interrupt__", .interruptList [⟨"i1", "approve?", true, ["tools"]⟩]),
       ("messages", .otherVal)]).1
    [⟨"i1", "approve?", true, ["tools"]⟩] (by decide)

/-- C9: Streaming error containment.  Any exception raised by the underlying
stream - after any prefix of successfully processed items - is caught and
converted into a single terminal error event carrying the stringified
exception and its type name (prefixed with Resume failed for the resume
loop); every event produced before the exception stands unchanged, the
remaining stream is discarded, and no exception propagates (both loops are
total functions into event lists). -/
theorem streaming_error_containment (thread_id : String)
    (processed : List StreamItem) (e : PyException) (rest : List StreamStep) :
    (unified_stream thread_id (processed.map .item ++ .raised e :: rest)
      = unified_stream thread_id (processed.map .item)
        ++ [.error thread_id e.msg e.type_name])
    ∧ (resume_interrupt_stream thread_id (processed.map .item ++ .raised e :: rest)
      = resume_interrupt_stream thread_id (processed.map .item)
        ++ [.error thread_id ("Resume failed: " ++ e.msg) e.type_name])
    ∧ (unified_stream thread_id (processed.map .item)
      = processed.flatMap (process_stream_item thread_id)) := by
  refine ⟨?_, ?_, ?_⟩
  · induction processed with
    | nil => rfl
    | cons it restp ih =>
      simp only [List.map_cons, List.cons_append, unified_stream,
        List.append_eq, ih, List.append_assoc]
  · induction processed with
    | nil => rfl
    | cons it restp ih =>
      simp only [List.map_cons, List.cons_append, resume_interrupt_stream,
        List.append_eq, ih, List.append_assoc]
  · induction processed with
    | nil => rfl
    | cons it restp ih =>
      simp only [List.map_cons, unified_stream, ih, List.flatMap_cons]

end Spec2Proof
